import Mathlib

/-!
Verification of the SADA-U-Session-3/sentiment-analysis repository (Go).

The repository has two Go source files: the `sentiment` package (post data
model, sentiment label classifier, entity tally, pruning of empty posts and
the per-post analysis loops) and the `app-engine` `main` package (HTTP
handlers, wrapper (de)serialization helpers, filename bookkeeping and
orchestration of storage / language-API / pubsub clients).

Shallow embedding conventions:
- Go `float32` fields are modelled by `Rat`.  Every comparison the code
  performs on a `float32` score is against the constants `0.0` and `0.1`;
  the conversion from real-valued scores to `float32` is monotone and maps
  the literals `0.0` and `0.1` of the source to the same constants that the
  comparisons use, so the branch taken by the Go code at a representable
  score equals the branch taken by the rational model at that score's value.
- Go `int` is modelled by `Int`, Go `string` by `String`, Go slices by
  `List`, and a Go `(T, error)` return pair by `T × Option Err` (with
  `none` for a `nil` error) or, for helpers that can only fail, `Except`.
- The external Google NL API calls (`client.AnalyzeSentiment`,
  `client.AnalyzeEntitySentiment`) are modelled as oracle functions passed
  in as parameters: a sentiment oracle returns the document score, an
  entity oracle returns the list of entity names (the only field of
  `languagepb.Entity` the repository reads is `Name`).
- A Go out-of-range slice index (a runtime panic) is modelled by `Option`
  with `none` for the panic.
- Go `map[string]int` is modelled by an insertion-ordered association list
  `List (String × Int)`; the observable mapping is its lookup function.
  (Go map iteration order is unspecified; no claim depends on it.)
-/

/-! ## Data model (`sentiment` package) -/

/-- Struct `EntityWrapper` from the sentiment package: a keyword/count pair used
for the flat JSON output. -/
structure EntityWrapper where
  keyword : String
  count : Int
deriving DecidableEq

/-- Struct `SentimentWrapper` from the sentiment package: running score and the
human-readable parsed label. -/
structure SentimentWrapper where
  score : Rat
  parsedSentiment : String
deriving DecidableEq

/-- Struct `Analysis` from the sentiment package: sentiment summary plus the
entity tally. -/
structure Analysis where
  sentiment : SentimentWrapper
  entity : List EntityWrapper
deriving DecidableEq

/-- Struct `RedditPost` from the sentiment package. -/
structure RedditPost where
  title : String
  score : Int
  id : String
  url : String
  commentCount : Int
  createdAt : Rat
  body : String
  timestamp : Rat
  comments : List String
  analysis : Analysis
deriving DecidableEq

/-- The Go zero value of `Analysis` (all fields zero / empty). -/
def Analysis.zero : Analysis :=
  { sentiment := { score := 0, parsedSentiment := "" }, entity := [] }

/-- The Go zero value of `RedditPost` (all fields zero / empty), as produced
by a struct literal that sets no field. -/
def RedditPost.zero : RedditPost :=
  { title := "", score := 0, id := "", url := "", commentCount := 0
    createdAt := 0, body := "", timestamp := 0, comments := []
    analysis := Analysis.zero }

/-! ## Sentiment label classifier

`parseSentiment` (sentiment package):

```go
func parseSentiment(score float32) string {
    if score == 0.0 { return "mixed" }
    else if score == 0.1 { return "neutral" }
    else if score > 0.1 { return "positive" }
    else if score < 0.1 && score > 0.0 { return "mixed" }
    else if score < 0.0 { return "negative" }
    else { return "unknown" }
}
```
-/

/-- Function `parseSentiment` from the sentiment package, branch for branch. -/
def parseSentiment (score : Rat) : String :=
  if score = 0.0 then "mixed"
  else if score = 0.1 then "neutral"
  else if score > 0.1 then "positive"
  else if score < 0.1 ∧ score > 0.0 then "mixed"
  else if score < 0.0 then "negative"
  else "unknown"

/-- The branch of `parseSentiment` that fires at a given score, numbered
1–6 in source order (the same `if`/`else if` chain with the branch index in
place of the returned label): branch 4 is the `score < 0.1 && score > 0.0`
branch, branch 6 the final `else`. -/
def parseSentimentBranch (score : Rat) : Nat :=
  if score = 0.0 then 1
  else if score = 0.1 then 2
  else if score > 0.1 then 3
  else if score < 0.1 ∧ score > 0.0 then 4
  else if score < 0.0 then 5
  else 6

/-! ## Entity tally

`getEntityCount` exists in two revisions.  The revision at
`src/unnamed/part_000` lines 316–330 builds and returns the
`map[string]int` tracker; the revision at lines 103–127 builds the same
tracker and then reshapes it into a `[]EntityWrapper`.  The tracker is
modelled as an insertion-ordered association list; `trackerLookup` is the
Go map read `entityTracker[name]` (with `none` for an absent key).  The
input is the list of `entity.Name` strings (the only field read). -/

/-- One iteration of the tally loop body: `if _, ok := tracker[name]; !ok
{ tracker[name] = 1 } else { tracker[name]++ }`. -/
def updateTracker (tracker : List (String × Int)) (name : String) :
    List (String × Int) :=
  if tracker.any (fun p => p.1 = name) then
    tracker.map (fun p => if p.1 = name then (p.1, p.2 + 1) else p)
  else
    tracker ++ [(name, 1)]

/-- Function `getEntityCount` (map revision, lines 316–330): fold the tally loop
over the entity names, starting from the empty tracker. -/
def getEntityCount (entities : List String) : List (String × Int) :=
  entities.foldl updateTracker []

/-- The Go map read `tracker[name]`, `none` when the key is absent. -/
def trackerLookup (tracker : List (String × Int)) (name : String) :
    Option Int :=
  (tracker.find? (fun p => p.1 = name)).map Prod.snd

/-- Function `getEntityCount` (wrapper revision, lines 103–127): the same tracker,
reshaped into `EntityWrapper` records (one per distinct key). -/
def getEntityCountWrapper (entities : List String) : List EntityWrapper :=
  (getEntityCount entities).map (fun p => { keyword := p.1, count := p.2 })

/-- The name-to-count mapping carried by a `[]EntityWrapper` value: the
count of the first wrapper whose keyword is the name. -/
def wrapperLookup (wrappers : List EntityWrapper) (name : String) :
    Option Int :=
  (wrappers.find? (fun w => w.keyword = name)).map EntityWrapper.count

/-! ## Pruning and the analysis loops -/

/-- Function `pruneEmptyPosts` from the sentiment package: keep the posts whose
`Body` is non-empty, in order. -/
def pruneEmptyPosts : List RedditPost → List RedditPost
  | [] => []
  | post :: rest =>
    if post.body = "" then pruneEmptyPosts rest
    else post :: pruneEmptyPosts rest

section AnalysisLoops

variable {Err : Type} {α : Type}

/-- The loop of `AnalyzePosts`: one blocking sentiment-oracle call per
post; on the first error return the empty list and that error, otherwise
add the score to the running total and store the parsed label. -/
def analyzeSentLoop (api : String → Except Err Rat) :
    List RedditPost → List RedditPost × Option Err
  | [] => ([], none)
  | post :: rest =>
    match api post.body with
    | .error e => ([], some e)
    | .ok score =>
      let post' : RedditPost :=
        { post with analysis :=
          { post.analysis with sentiment :=
            { score := post.analysis.sentiment.score + score
              parsedSentiment := parseSentiment score } } }
      match analyzeSentLoop api rest with
      | (_, some e) => ([], some e)
      | (posts, none) => (post' :: posts, none)

/-- Function `AnalyzePosts` from the sentiment package (lines 179–202): prune empty
bodies, then run the sentiment loop. -/
def AnalyzePosts (api : String → Except Err Rat) (posts : List RedditPost) :
    List RedditPost × Option Err :=
  analyzeSentLoop api (pruneEmptyPosts posts)

/-- The loop of `AnalyzeEntitesInPosts`: one entity-oracle call per post;
on the first error return the empty list and that error, otherwise store
the entity tally. -/
def analyzeEntityLoop (api : String → Except Err (List String)) :
    List RedditPost → List RedditPost × Option Err
  | [] => ([], none)
  | post :: rest =>
    match api post.body with
    | .error e => ([], some e)
    | .ok names =>
      let post' : RedditPost :=
        { post with analysis :=
          { post.analysis with entity := getEntityCountWrapper names } }
      match analyzeEntityLoop api rest with
      | (_, some e) => ([], some e)
      | (posts, none) => (post' :: posts, none)

/-- Function `AnalyzeEntitesInPosts` from the sentiment package (lines 152–174). -/
def AnalyzeEntitesInPosts (api : String → Except Err (List String))
    (posts : List RedditPost) : List RedditPost × Option Err :=
  analyzeEntityLoop api (pruneEmptyPosts posts)

/-- The first error produced by the oracle along a list of posts, in
order; `none` when every call succeeds. -/
def firstApiError (api : String → Except Err α) :
    List RedditPost → Option Err
  | [] => none
  | post :: rest =>
    match api post.body with
    | .error e => some e
    | .ok _ => firstApiError api rest

end AnalysisLoops

/-- A post with the `Analysis` field reset to its zero value: the
identity-carrying part of a post, used to compare the analysed output with
the pruned input. -/
def eraseAnalysis (post : RedditPost) : RedditPost :=
  { post with analysis := Analysis.zero }

/-! ## Output wrapper and merge helpers (`app-engine/main.go`) -/

/-- Struct `AnalysisWrapper` from main.go: the flat output record. -/
structure AnalysisWrapper where
  id : String
  entity : List EntityWrapper
  sentiment : SentimentWrapper
deriving DecidableEq

/-- Function `fromWrapper` from main.go: each wrapper becomes a `RedditPost` struct
literal that sets only the `ID` field (every other field is the Go zero
value). -/
def fromWrapper (posts : List AnalysisWrapper) : List RedditPost :=
  posts.map (fun post => { RedditPost.zero with id := post.id })

/-- Function `toWrapper` from main.go: each post becomes the wrapper carrying its
`ID`, entity tally and sentiment summary. -/
def toWrapper (posts : List RedditPost) : List AnalysisWrapper :=
  posts.map (fun post =>
    { id := post.id, entity := post.analysis.entity
      sentiment := post.analysis.sentiment })

/-- One iteration of the inner loop of `addSentimentToWrapper`: read
`wrapperPosts[j]` from the current list; on an ID match the code assigns
to `wrapperPosts[i]` — the OUTER index — which is a runtime panic
(`none`) when `i` is out of range. -/
def innerSentStep (post : RedditPost) (i : Nat) (w : List AnalysisWrapper)
    (j : Nat) : Option (List AnalysisWrapper) :=
  match w.get? j with
  | none => some w
  | some wrappedPost =>
    if wrappedPost.id = post.id then
      match w.get? i with
      | none => none
      | some target =>
        some (w.set i { target with sentiment := post.analysis.sentiment })
    else some w

/-- The inner loop of `addSentimentToWrapper`: `j` runs over the indices
of the wrapper list.  The loop guard `j < len(wrapperPosts)` is tested
against the current list, but the body only assigns to element fields, so
the length is loop-invariant and iterating over the initial index range is
exact. -/
def innerSent (post : RedditPost) (i : Nat) (w : List AnalysisWrapper) :
    Option (List AnalysisWrapper) :=
  (List.range w.length).foldl
    (fun acc j => acc.bind (fun w' => innerSentStep post i w' j)) (some w)

/-- The outer loop of `addSentimentToWrapper`: `i` scans the posts. -/
def outerSent : List RedditPost → Nat → List AnalysisWrapper →
    Option (List AnalysisWrapper)
  | [], _, w => some w
  | post :: rest, i, w =>
    match innerSent post i w with
    | none => none
    | some w' => outerSent rest (i + 1) w'

/-- Function `addSentimentToWrapper` from main.go (lines 141–154). -/
def addSentimentToWrapper (posts : List RedditPost)
    (wrapperPosts : List AnalysisWrapper) : Option (List AnalysisWrapper) :=
  outerSent posts 0 wrapperPosts

/-- One iteration of the inner loop of `addEntityToWrapper`, same shape as
`innerSentStep` with the `Entity` field assigned instead. -/
def innerEntStep (post : RedditPost) (i : Nat) (w : List AnalysisWrapper)
    (j : Nat) : Option (List AnalysisWrapper) :=
  match w.get? j with
  | none => some w
  | some wrappedPost =>
    if wrappedPost.id = post.id then
      match w.get? i with
      | none => none
      | some target =>
        some (w.set i { target with entity := post.analysis.entity })
    else some w

/-- The inner loop of `addEntityToWrapper`. -/
def innerEnt (post : RedditPost) (i : Nat) (w : List AnalysisWrapper) :
    Option (List AnalysisWrapper) :=
  (List.range w.length).foldl
    (fun acc j => acc.bind (fun w' => innerEntStep post i w' j)) (some w)

/-- The outer loop of `addEntityToWrapper`. -/
def outerEnt : List RedditPost → Nat → List AnalysisWrapper →
    Option (List AnalysisWrapper)
  | [], _, w => some w
  | post :: rest, i, w =>
    match innerEnt post i w with
    | none => none
    | some w' => outerEnt rest (i + 1) w'

/-- Function `addEntityToWrapper` from main.go (lines 156–169). -/
def addEntityToWrapper (posts : List RedditPost)
    (wrapperPosts : List AnalysisWrapper) : Option (List AnalysisWrapper) :=
  outerEnt posts 0 wrapperPosts

/-! ## Filename bookkeeping (`app-engine/main.go`) -/

/-- Helper for `filepath.Ext`: walk the reversed character list, carrying
the characters already passed (in forward order); stop at a path separator
with no extension, or return from the last dot. -/
def extFromRev : List Char → List Char → String
  | [], _ => ""
  | c :: rest, acc =>
    if c = '/' then ""
    else if c = '.' then String.mk (c :: acc)
    else extFromRev rest (c :: acc)

/-- Go's `filepath.Ext`: the suffix of the final path element that starts
at its last dot, empty when there is none. -/
def filepathExt (path : String) : String :=
  extFromRev path.toList.reverse []

/-- Helper for `strings.Replace(s, old, new, 1)` with non-empty `old`:
replace the first (leftmost) occurrence of `old` as a contiguous substring. -/
def replaceFirstList (old new : List Char) : List Char → List Char
  | [] => []
  | c :: rest =>
    if (c :: rest).take old.length = old then
      new ++ (c :: rest).drop old.length
    else c :: replaceFirstList old new rest

/-- Go's `strings.Replace(s, old, new, 1)`: with an empty `old` a single
replacement inserts `new` before the string; otherwise the first occurrence
of `old` is replaced. -/
def stringsReplace1 (s old new : String) : String :=
  if old = "" then new ++ s
  else String.mk (replaceFirstList old.toList new.toList s.toList)

/-- Function `appendToFilename` from main.go (lines 171–175). -/
def appendToFilename (filename addendum : String) : String :=
  stringsReplace1 filename (filepathExt filename) "_" ++ addendum
    ++ filepathExt filename

/-- Go's `strings.ToLower` restricted to the behaviour the repository
relies on (ASCII letters; other characters are unchanged by
`Char.toLower` exactly as non-cased runes are unchanged by Go). -/
def stringToLower (s : String) : String :=
  String.mk (s.toList.map Char.toLower)

/-- Helper for `strings.Contains`: `sub` occurs as a contiguous substring
of `s` (the empty `sub` always occurs). -/
def listContainsSub : List Char → List Char → Bool
  | s, sub =>
    if s.take sub.length = sub then true
    else
      match s with
      | [] => false
      | _ :: rest => listContainsSub rest sub

/-- Go's `strings.Contains`. -/
def stringsContains (s sub : String) : Bool :=
  listContainsSub s.toList sub.toList

/-- Function `isAnalysisFilename` from main.go (lines 301–305): lowercase the
filename and test for the substring `"analyzed"`. -/
def isAnalysisFilename (filename : String) : Bool :=
  stringsContains (stringToLower filename) "analyzed"

/-- The two code paths of `startEntityAnalysis` / `startSentimentAnalysis`
(main.go line 314 / 433): merge into an existing analyzed file, or analyze
a fresh posts file. -/
inductive AnalysisPath where
  | mergeExisting
  | freshAnalysis
deriving DecidableEq

/-- The branch `if isAnalysisFilename(filename)` selecting the code path
in `startEntityAnalysis` (main.go lines 314–336). -/
def startEntityAnalysisPath (filename : String) : AnalysisPath :=
  if isAnalysisFilename filename then .mergeExisting else .freshAnalysis

/-- The output-name override in `startEntityAnalysis` (main.go lines
411–413): when the input filename is already an analysis filename the
upload reuses the input name, otherwise it uses the name the handler
derived. -/
def selectOutputFilename (filename outputFilename : String) : String :=
  if isAnalysisFilename filename then filename else outputFilename

/-! ## HTTP handlers (`app-engine/main.go`) -/

/-- The observable synchronous HTTP response: status code and body. -/
structure HttpResponse where
  status : Nat
  body : String
deriving DecidableEq

/-- Function `analyzeEntityHandler` from main.go (lines 545–575), as a function of
the request method and the `filename` query parameter (Go's
`query.Get` returns `""` when the parameter is missing): the synchronous
response, written before the background analysis is spawned. -/
def analyzeEntityHandler (method filename : String) : HttpResponse :=
  if method ≠ "GET" then { status := 400, body := "must be GET request" }
  else if filename = "" then
    { status := 400, body := "missing required input filename" }
  else { status := 200, body := "analyzing \"" ++ filename ++ "\"" }

/-- Function `analyzeSentimentHandler` from main.go (lines 577–608): identical
synchronous behaviour to `analyzeEntityHandler`. -/
def analyzeSentimentHandler (method filename : String) : HttpResponse :=
  if method ≠ "GET" then { status := 400, body := "must be GET request" }
  else if filename = "" then
    { status := 400, body := "missing required input filename" }
  else { status := 200, body := "analyzing \"" ++ filename ++ "\"" }

/-! ## Concrete sample values used by witnesses and counterexamples -/

/-- A post with a non-empty body. -/
def sampleBodyPost : RedditPost :=
  { RedditPost.zero with
    id := "p1"
    body := "hello world" }

/-- A post with ID `"b"` carrying a sentiment result, input for the merge
helpers. -/
def mergeSentPost : RedditPost :=
  { RedditPost.zero with
    id := "b"
    analysis := { Analysis.zero with
      sentiment := { score := 1, parsedSentiment := "positive" } } }

/-- A post with ID `"b"` carrying an entity tally, input for the merge
helpers. -/
def mergeEntPost : RedditPost :=
  { RedditPost.zero with
    id := "b"
    analysis := { Analysis.zero with
      entity := [{ keyword := "k", count := 2 }] } }

/-- A wrapper record with ID `"a"` and no analysis results. -/
def wrapperA : AnalysisWrapper :=
  { id := "a", entity := [], sentiment := { score := 0, parsedSentiment := "" } }

/-- A wrapper record with ID `"b"` and no analysis results. -/
def wrapperB : AnalysisWrapper :=
  { id := "b", entity := [], sentiment := { score := 0, parsedSentiment := "" } }

/-- A post with a non-zero `Title`. -/
def titledPost : RedditPost :=
  { RedditPost.zero with
    id := "x"
    title := "t" }

/-- A sentiment oracle that fails on every input. -/
def failingSentOracle : String → Except String Rat :=
  fun _ => Except.error "boom"

/-- An entity oracle that fails on every input. -/
def failingEntityOracle : String → Except String (List String) :=
  fun _ => Except.error "boom"

/-! # Claims -/

/-- C1: `parseSentiment` realises the spec's threshold table at the
representative scores: 0.5 ↦ "positive", −0.5 ↦ "negative", 0.1 ↦
"neutral", 0.05 ↦ "mixed", 0.0 ↦ "mixed". -/
theorem parseSentiment_threshold_table :
    parseSentiment 0.5 = "positive" ∧ parseSentiment (-0.5) = "negative" ∧
    parseSentiment 0.1 = "neutral" ∧ parseSentiment 0.05 = "mixed" ∧
    parseSentiment 0.0 = "mixed" := by
  refine ⟨?_, ?_, ?_, ?_, ?_⟩ <;> norm_num [parseSentiment]

/-- C2 counterexample: the claim asserts the branch guarded by
`score < 0.1 && score > 0.0` is unreachable, but at score 0.05 the chain
of `parseSentiment` falls through the three preceding guards and fires
exactly that fourth branch. -/
theorem parseSentimentBranch_four_reached : parseSentimentBranch 0.05 = 4 := by
  norm_num [parseSentimentBranch]

/-- C2 (amended): in `parseSentiment`, the branch guarded by
`score < 0.1 && score > 0.0` is reachable — score 0.05 reaches it and the
function returns "mixed" there — and the `score == 0.0` and `score < 0.0`
branch guards are disjoint: no score satisfies both. -/
theorem parseSentiment_branch_structure :
    parseSentimentBranch 0.05 = 4 ∧ parseSentiment 0.05 = "mixed" ∧
    ∀ score : Rat, score = 0.0 → ¬ score < 0.0 := by
  refine ⟨by norm_num [parseSentimentBranch], by norm_num [parseSentiment], ?_⟩
  rintro score rfl
  norm_num

/-- Witness for the amended C2 theorem, instantiated at score 0.0. -/
theorem parseSentiment_branch_structure_witness : ¬ (0.0 : Rat) < 0.0 :=
  parseSentiment_branch_structure.2.2 0.0 rfl

/-- C5 (code bug): `addSentimentToWrapper` and `addEntityToWrapper` compare
`wrapperPosts[j].ID` with the post's ID but assign to `wrapperPosts[i]` —
the index of the POST, not of the matched wrapper.  With the single post
of ID "b" and the wrapper list ["a", "b"], both helpers store the post's
analysis on the wrapper with ID "a" and leave the matching wrapper "b"
untouched, contradicting merge-by-ID. -/
theorem addToWrapper_misdirected_write :
    addSentimentToWrapper [mergeSentPost] [wrapperA, wrapperB] =
      some [{ wrapperA with sentiment := mergeSentPost.analysis.sentiment },
        wrapperB] ∧
    addEntityToWrapper [mergeEntPost] [wrapperA, wrapperB] =
      some [{ wrapperA with entity := mergeEntPost.analysis.entity },
        wrapperB] :=
  ⟨by decide, by decide⟩

/-- C7: `appendToFilename` inserts the suffix before the extension —
`appendToFilename "posts.json" "analyzed" = "posts_analyzed.json"` — and
when the input filename is already marked analyzed, the output-filename
selection of `startEntityAnalysis` reuses the input filename. -/
theorem appendToFilename_spec :
    appendToFilename "posts.json" "analyzed" = "posts_analyzed.json" ∧
    ∀ filename outputFilename : String,
      isAnalysisFilename filename = true →
      selectOutputFilename filename outputFilename = filename := by
  refine ⟨by decide, ?_⟩
  intro filename outputFilename h
  simp [selectOutputFilename, h]

/-- Witness for C7 at the already-analyzed filename
`"posts_analyzed.json"`. -/
theorem appendToFilename_spec_witness :
    selectOutputFilename "posts_analyzed.json"
      (appendToFilename "posts_analyzed.json" "analyzed") =
      "posts_analyzed.json" :=
  appendToFilename_spec.2 "posts_analyzed.json"
    (appendToFilename "posts_analyzed.json" "analyzed") (by decide)

/-- C9 counterexample: for a post whose `Title` is non-zero, encoding with
`toWrapper` and decoding with `fromWrapper` does not restore the post:
the claim's field-for-field round trip fails at this input. -/
theorem fromWrapper_toWrapper_not_identity :
    decide (fromWrapper (toWrapper [titledPost]) = [titledPost]) = false := by
  decide

/-- C9 (amended): decoding after encoding preserves exactly the ID
sequence: `fromWrapper (toWrapper posts)` is the list of posts carrying
the original IDs with every other field reset to the Go zero value (so the
claimed field-for-field equality holds only when all other fields of every
post are already zero). -/
theorem fromWrapper_toWrapper_id_only :
    ∀ posts : List RedditPost,
      fromWrapper (toWrapper posts) =
        posts.map (fun post => { RedditPost.zero with id := post.id }) := by
  intro posts
  simp only [fromWrapper, toWrapper, List.map_map]
  rfl

/-- C8: both analyze handlers answer 400 exactly when the method is not
GET or the `filename` query parameter is missing (empty), and otherwise
answer 200 with the synchronous acknowledgement string. -/
theorem analyzeHandlers_response :
    ∀ method filename : String,
      ((analyzeEntityHandler method filename).status = 400 ↔
        method ≠ "GET" ∨ filename = "") ∧
      ((analyzeSentimentHandler method filename).status = 400 ↔
        method ≠ "GET" ∨ filename = "") ∧
      (method = "GET" → filename ≠ "" →
        analyzeEntityHandler method filename =
          { status := 200, body := "analyzing \"" ++ filename ++ "\"" } ∧
        analyzeSentimentHandler method filename =
          { status := 200, body := "analyzing \"" ++ filename ++ "\"" }) := by
  intro method filename
  by_cases hm : method = "GET" <;> by_cases hf : filename = "" <;>
    simp [analyzeEntityHandler, analyzeSentimentHandler, hm, hf]

/-- Witness for C8 on a valid GET request with a filename. -/
theorem analyzeHandlers_response_witness :
    analyzeEntityHandler "GET" "posts.json" =
      { status := 200, body := "analyzing \"posts.json\"" } :=
  ((analyzeHandlers_response "GET" "posts.json").2.2 rfl (by decide)).1

theorem trackerLookup_cons (p : String × Int) (t : List (String × Int))
    (name : String) :
    trackerLookup (p :: t) name =
      if p.1 = name then some p.2 else trackerLookup t name := by
  by_cases h : p.1 = name <;> simp [trackerLookup, List.find?_cons, h]

theorem any_eq_isSome_trackerLookup (t : List (String × Int)) (name : String) :
    t.any (fun p => p.1 = name) = (trackerLookup t name).isSome := by
  induction t with
  | nil => simp [trackerLookup]
  | cons p rest ih =>
    by_cases h : p.1 = name <;> simp [trackerLookup_cons, h, ih]

theorem trackerLookup_map_incr (t : List (String × Int)) (name n : String) :
    trackerLookup
        (t.map (fun p => if p.1 = name then (p.1, p.2 + 1) else p)) n =
      if name = n then (trackerLookup t n).map (· + 1)
      else trackerLookup t n := by
  induction t with
  | nil => by_cases h : name = n <;> simp [trackerLookup, h]
  | cons p rest ih =>
    by_cases hpn : p.1 = name
    · by_cases hn : p.1 = n
      · have hnn : name = n := hn ▸ hpn ▸ rfl
        simp [hpn, trackerLookup_cons, hn, hnn]
      · have hnn : ¬ name = n := fun h => hn (hpn.trans h)
        simp [hpn, trackerLookup_cons, hn, hnn, ih]
    · by_cases hn : p.1 = n
      · have hnn : ¬ name = n := fun h => hpn (hn.trans h.symm)
        have hnm : ¬ n = name := fun h => hnn h.symm
        simp [hpn, trackerLookup_cons, hn, hnn, hnm]
      · simp [hpn, trackerLookup_cons, hn, ih]

theorem trackerLookup_updateTracker (t : List (String × Int))
    (name n : String) :
    trackerLookup (updateTracker t name) n =
      if name = n then
        match trackerLookup t n with
        | none => some 1
        | some k => some (k + 1)
      else trackerLookup t n := by
  unfold updateTracker
  by_cases hany : t.any (fun p => p.1 = name) = true
  · rw [if_pos hany, trackerLookup_map_incr]
    by_cases hnn : name = n
    · subst hnn
      have hsome : (trackerLookup t name).isSome :=
        (any_eq_isSome_trackerLookup t name) ▸ hany
      rcases h : trackerLookup t name with _ | k
      · rw [h] at hsome; simp at hsome
      · simp [h]
    · simp [hnn]
  · rw [if_neg hany]
    have hnone : trackerLookup t name = none := by
      rcases h : trackerLookup t name with _ | k
      · rfl
      · exact absurd ((any_eq_isSome_trackerLookup t name).trans
          (by simp [h])) hany
    induction t with
    | nil => by_cases hnn : name = n <;> simp [trackerLookup, hnn]
    | cons p rest ih =>
      rw [trackerLookup_cons] at hnone
      by_cases hp : p.1 = name
      · rw [if_pos hp] at hnone; cases hnone
      · rw [if_neg hp] at hnone
        have hanyr : ¬ rest.any (fun q => q.1 = name) = true := by
          rw [any_eq_isSome_trackerLookup, hnone]; simp
        by_cases hpn2 : p.1 = n
        · have hnn : ¬ name = n := fun h => hp (hpn2.trans h.symm)
          simp [List.cons_append, trackerLookup_cons, hpn2, hnn]
        · simp only [List.cons_append, trackerLookup_cons, if_neg hpn2]
          exact ih hanyr hnone

theorem trackerLookup_foldl (entities : List String)
    (t : List (String × Int)) (n : String) :
    trackerLookup (entities.foldl updateTracker t) n =
      match trackerLookup t n with
      | none =>
        if entities.count n = 0 then none
        else some (entities.count n : Int)
      | some k => some (k + (entities.count n : Int)) := by
  induction entities generalizing t with
  | nil => rcases h : trackerLookup t n with _ | k <;> simp [h]
  | cons e rest ih =>
    rw [List.foldl_cons, ih, trackerLookup_updateTracker]
    by_cases he : e = n
    · subst he
      rcases h : trackerLookup t e with _ | k
      · simp [h, List.count_cons]
        rcases hc : rest.count e with _ | m <;> simp [hc] <;> omega
      · simp [h, List.count_cons]
        ring
    · have hne : ¬ (e = n) := he
      rcases h : trackerLookup t n with _ | k <;>
        simp [h, hne, List.count_cons]

theorem wrapperLookup_map_tracker (t : List (String × Int)) (name : String) :
    wrapperLookup (t.map (fun p => { keyword := p.1, count := p.2 })) name =
      trackerLookup t name := by
  induction t with
  | nil => simp [wrapperLookup, trackerLookup]
  | cons p rest ih =>
    by_cases h : p.1 = name <;>
      simp [wrapperLookup, trackerLookup_cons, List.find?_cons, h] <;>
      simpa [wrapperLookup] using ih

/-- C3: the entity tally maps each distinct entity name to exactly the
number of times that name occurs in the input list (in both the
`map[string]int` revision and the `[]EntityWrapper` revision, whose
mappings agree), and the mapping is invariant under permutation of the
input. -/
theorem getEntityCount_exact_counts :
    (∀ (entities : List String) (name : String),
      trackerLookup (getEntityCount entities) name =
        if entities.count name = 0 then none
        else some (entities.count name : Int)) ∧
    (∀ (entities : List String) (name : String),
      wrapperLookup (getEntityCountWrapper entities) name =
        trackerLookup (getEntityCount entities) name) ∧
    (∀ entities entities' : List String, entities.Perm entities' →
      ∀ name : String,
        trackerLookup (getEntityCount entities) name =
          trackerLookup (getEntityCount entities') name) := by
  have hmain : ∀ (entities : List String) (name : String),
      trackerLookup (getEntityCount entities) name =
        if entities.count name = 0 then none
        else some (entities.count name : Int) := by
    intro entities name
    have h := trackerLookup_foldl entities [] name
    simpa [getEntityCount, trackerLookup] using h
  refine ⟨hmain, ?_, ?_⟩
  · intro entities name
    exact wrapperLookup_map_tracker (getEntityCount entities) name
  · intro entities entities' hperm name
    rw [hmain, hmain, hperm.count_eq]

/-- Witness for C3 on the concrete input ["a", "b", "a"] and its
permutation ["a", "a", "b"]. -/
theorem getEntityCount_exact_counts_witness :
    trackerLookup (getEntityCount ["a", "b", "a"]) "a" =
      trackerLookup (getEntityCount ["a", "a", "b"]) "a" :=
  getEntityCount_exact_counts.2.2 ["a", "b", "a"] ["a", "a", "b"]
    (by decide) "a"

theorem pruneEmptyPosts_eq_filter (posts : List RedditPost) :
    pruneEmptyPosts posts = posts.filter (fun post => post.body != "") := by
  induction posts with
  | nil => rfl
  | cons p rest ih =>
    by_cases h : p.body = "" <;> simp [pruneEmptyPosts, List.filter_cons, h, ih]

theorem mem_pruneEmptyPosts_body_ne (posts : List RedditPost) :
    ∀ post ∈ pruneEmptyPosts posts, post.body ≠ "" := by
  intro post hmem
  rw [pruneEmptyPosts_eq_filter] at hmem
  have := List.of_mem_filter hmem
  simpa using this

theorem analyzeSentLoop_body_ne {Err : Type} (api : String → Except Err Rat) :
    ∀ posts : List RedditPost, (∀ post ∈ posts, post.body ≠ "") →
      ∀ post ∈ (analyzeSentLoop api posts).1, post.body ≠ "" := by
  intro posts
  induction posts with
  | nil => intro _ post hp; simp [analyzeSentLoop] at hp
  | cons p rest ih =>
    intro hall post hp
    rcases hapi : api p.body with e | sc
    · simp [analyzeSentLoop, hapi] at hp
    · rcases hrest : analyzeSentLoop api rest with ⟨ps, err⟩
      rcases err with _ | e
      · simp only [analyzeSentLoop, hapi, hrest, List.mem_cons] at hp
        rcases hp with hpost | hpost
        · subst hpost
          simpa using hall p (List.mem_cons_self p rest)
        · have := ih (fun q hq => hall q (List.mem_cons_of_mem p hq)) post
          rw [hrest] at this
          exact this hpost
      · simp [analyzeSentLoop, hapi, hrest] at hp

theorem analyzeEntityLoop_body_ne {Err : Type}
    (api : String → Except Err (List String)) :
    ∀ posts : List RedditPost, (∀ post ∈ posts, post.body ≠ "") →
      ∀ post ∈ (analyzeEntityLoop api posts).1, post.body ≠ "" := by
  intro posts
  induction posts with
  | nil => intro _ post hp; simp [analyzeEntityLoop] at hp
  | cons p rest ih =>
    intro hall post hp
    rcases hapi : api p.body with e | names
    · simp [analyzeEntityLoop, hapi] at hp
    · rcases hrest : analyzeEntityLoop api rest with ⟨ps, err⟩
      rcases err with _ | e
      · simp only [analyzeEntityLoop, hapi, hrest, List.mem_cons] at hp
        rcases hp with hpost | hpost
        · subst hpost
          simpa using hall p (List.mem_cons_self p rest)
        · have := ih (fun q hq => hall q (List.mem_cons_of_mem p hq)) post
          rw [hrest] at this
          exact this hpost
      · simp [analyzeEntityLoop, hapi, hrest] at hp

theorem analyzeSentLoop_map_erase {Err : Type}
    (api : String → Except Err Rat) :
    ∀ posts : List RedditPost, (analyzeSentLoop api posts).2 = none →
      (analyzeSentLoop api posts).1.map eraseAnalysis =
        posts.map eraseAnalysis := by
  intro posts
  induction posts with
  | nil => intro _; rfl
  | cons p rest ih =>
    intro hnone
    rcases hapi : api p.body with e | sc
    · simp [analyzeSentLoop, hapi] at hnone
    · rcases hrest : analyzeSentLoop api rest with ⟨ps, err⟩
      rcases err with _ | e
      · have hih := ih (by rw [hrest])
        rw [hrest] at hih
        simp [analyzeSentLoop, hapi, hrest, hih, eraseAnalysis]
      · simp [analyzeSentLoop, hapi, hrest] at hnone

theorem analyzeEntityLoop_map_erase {Err : Type}
    (api : String → Except Err (List String)) :
    ∀ posts : List RedditPost, (analyzeEntityLoop api posts).2 = none →
      (analyzeEntityLoop api posts).1.map eraseAnalysis =
        posts.map eraseAnalysis := by
  intro posts
  induction posts with
  | nil => intro _; rfl
  | cons p rest ih =>
    intro hnone
    rcases hapi : api p.body with e | names
    · simp [analyzeEntityLoop, hapi] at hnone
    · rcases hrest : analyzeEntityLoop api rest with ⟨ps, err⟩
      rcases err with _ | e
      · have hih := ih (by rw [hrest])
        rw [hrest] at hih
        simp [analyzeEntityLoop, hapi, hrest, hih, eraseAnalysis]
      · simp [analyzeEntityLoop, hapi, hrest] at hnone

/-- C4: `AnalyzePosts` and `AnalyzeEntitesInPosts` operate on exactly the
posts with a non-empty body: the pruning step is the order-preserving
filter on non-empty bodies, every returned post has a non-empty body, and
on the no-error path the returned list is exactly the pruned input (same
posts in the same order, up to the attached analysis). -/
theorem analyze_prunes_empty_bodies {Err₁ Err₂ : Type}
    (sapi : String → Except Err₁ Rat)
    (eapi : String → Except Err₂ (List String)) (posts : List RedditPost) :
    pruneEmptyPosts posts = posts.filter (fun post => post.body != "") ∧
    (∀ post ∈ (AnalyzePosts sapi posts).1, post.body ≠ "") ∧
    (∀ post ∈ (AnalyzeEntitesInPosts eapi posts).1, post.body ≠ "") ∧
    ((AnalyzePosts sapi posts).2 = none →
      (AnalyzePosts sapi posts).1.map eraseAnalysis =
        (pruneEmptyPosts posts).map eraseAnalysis) ∧
    ((AnalyzeEntitesInPosts eapi posts).2 = none →
      (AnalyzeEntitesInPosts eapi posts).1.map eraseAnalysis =
        (pruneEmptyPosts posts).map eraseAnalysis) := by
  refine ⟨pruneEmptyPosts_eq_filter posts, ?_, ?_, ?_, ?_⟩
  · exact analyzeSentLoop_body_ne sapi (pruneEmptyPosts posts)
      (mem_pruneEmptyPosts_body_ne posts)
  · exact analyzeEntityLoop_body_ne eapi (pruneEmptyPosts posts)
      (mem_pruneEmptyPosts_body_ne posts)
  · exact analyzeSentLoop_map_erase sapi (pruneEmptyPosts posts)
  · exact analyzeEntityLoop_map_erase eapi (pruneEmptyPosts posts)

/-- Witness for C4: a two-post input (one non-empty body, one empty) with
always-succeeding oracles. -/
theorem analyze_prunes_empty_bodies_witness :
    (AnalyzePosts (fun _ => (Except.ok 0 : Except Unit Rat))
        [sampleBodyPost, RedditPost.zero]).1.map eraseAnalysis =
      (pruneEmptyPosts [sampleBodyPost, RedditPost.zero]).map eraseAnalysis :=
  (analyze_prunes_empty_bodies (fun _ => (Except.ok 0 : Except Unit Rat))
    (fun _ => (Except.ok [] : Except Unit (List String)))
    [sampleBodyPost, RedditPost.zero]).2.2.2.1 rfl

theorem analyzeSentLoop_snd {Err : Type} (api : String → Except Err Rat) :
    ∀ posts : List RedditPost,
      (analyzeSentLoop api posts).2 = firstApiError api posts := by
  intro posts
  induction posts with
  | nil => rfl
  | cons p rest ih =>
    rcases hapi : api p.body with e | sc
    · simp [analyzeSentLoop, firstApiError, hapi]
    · rcases hrest : analyzeSentLoop api rest with ⟨ps, err⟩
      rw [hrest] at ih
      rcases err with _ | e <;>
        simp [analyzeSentLoop, firstApiError, hapi, hrest, ← ih]

theorem analyzeEntityLoop_snd {Err : Type}
    (api : String → Except Err (List String)) :
    ∀ posts : List RedditPost,
      (analyzeEntityLoop api posts).2 = firstApiError api posts := by
  intro posts
  induction posts with
  | nil => rfl
  | cons p rest ih =>
    rcases hapi : api p.body with e | names
    · simp [analyzeEntityLoop, firstApiError, hapi]
    · rcases hrest : analyzeEntityLoop api rest with ⟨ps, err⟩
      rw [hrest] at ih
      rcases err with _ | e <;>
        simp [analyzeEntityLoop, firstApiError, hapi, hrest, ← ih]

theorem analyzeSentLoop_fst_of_error {Err : Type}
    (api : String → Except Err Rat) :
    ∀ (posts : List RedditPost) (e : Err),
      (analyzeSentLoop api posts).2 = some e →
      (analyzeSentLoop api posts).1 = [] := by
  intro posts e
  induction posts with
  | nil => intro h; cases h
  | cons p rest ih =>
    intro h
    rcases hapi : api p.body with e' | sc
    · simp [analyzeSentLoop, hapi]
    · rcases hrest : analyzeSentLoop api rest with ⟨ps, err⟩
      rcases err with _ | e'
      · simp [analyzeSentLoop, hapi, hrest] at h
      · simp [analyzeSentLoop, hapi, hrest]

theorem analyzeEntityLoop_fst_of_error {Err : Type}
    (api : String → Except Err (List String)) :
    ∀ (posts : List RedditPost) (e : Err),
      (analyzeEntityLoop api posts).2 = some e →
      (analyzeEntityLoop api posts).1 = [] := by
  intro posts e
  induction posts with
  | nil => intro h; cases h
  | cons p rest ih =>
    intro h
    rcases hapi : api p.body with e' | names
    · simp [analyzeEntityLoop, hapi]
    · rcases hrest : analyzeEntityLoop api rest with ⟨ps, err⟩
      rcases err with _ | e'
      · simp [analyzeEntityLoop, hapi, hrest] at h
      · simp [analyzeEntityLoop, hapi, hrest]

theorem firstApiError_isSome {Err α : Type} (api : String → Except Err α) :
    ∀ posts : List RedditPost,
      (∃ post ∈ posts, ∃ e, api post.body = Except.error e) →
      (firstApiError api posts).isSome = true := by
  intro posts
  induction posts with
  | nil => rintro ⟨post, hmem, _⟩; cases hmem
  | cons p rest ih =>
    rintro ⟨post, hmem, e, herr⟩
    rcases hapi : api p.body with e' | v
    · simp [firstApiError, hapi]
    · rcases List.mem_cons.mp hmem with hpost | hpost
      · subst hpost
        rw [hapi] at herr
        cases herr
      · simp only [firstApiError, hapi]
        exact ih ⟨post, hpost, e, herr⟩

/-- C6: when some per-post oracle call fails, `AnalyzePosts` and
`AnalyzeEntitesInPosts` return the empty post list together with an error,
and that error is the one produced by the first failing call in post
order (no partially analyzed list is ever returned alongside an error). -/
theorem analyze_aborts_on_first_error {Err₁ Err₂ : Type}
    (sapi : String → Except Err₁ Rat)
    (eapi : String → Except Err₂ (List String)) (posts : List RedditPost)
    (hs : ∃ post ∈ pruneEmptyPosts posts, ∃ e,
      sapi post.body = Except.error e)
    (he : ∃ post ∈ pruneEmptyPosts posts, ∃ e,
      eapi post.body = Except.error e) :
    (∃ e, AnalyzePosts sapi posts = ([], some e) ∧
      firstApiError sapi (pruneEmptyPosts posts) = some e) ∧
    (∃ e, AnalyzeEntitesInPosts eapi posts = ([], some e) ∧
      firstApiError eapi (pruneEmptyPosts posts) = some e) := by
  constructor
  · have hsome := firstApiError_isSome sapi (pruneEmptyPosts posts) hs
    rcases hfe : firstApiError sapi (pruneEmptyPosts posts) with _ | e
    · rw [hfe] at hsome; cases hsome
    · refine ⟨e, ?_, rfl⟩
      have hsnd : (AnalyzePosts sapi posts).2 = some e :=
        (analyzeSentLoop_snd sapi (pruneEmptyPosts posts)).trans hfe
      have hfst : (AnalyzePosts sapi posts).1 = [] :=
        analyzeSentLoop_fst_of_error sapi (pruneEmptyPosts posts) e hsnd
      exact Prod.ext hfst hsnd
  · have hsome := firstApiError_isSome eapi (pruneEmptyPosts posts) he
    rcases hfe : firstApiError eapi (pruneEmptyPosts posts) with _ | e
    · rw [hfe] at hsome; cases hsome
    · refine ⟨e, ?_, rfl⟩
      have hsnd : (AnalyzeEntitesInPosts eapi posts).2 = some e :=
        (analyzeEntityLoop_snd eapi (pruneEmptyPosts posts)).trans hfe
      have hfst : (AnalyzeEntitesInPosts eapi posts).1 = [] :=
        analyzeEntityLoop_fst_of_error eapi (pruneEmptyPosts posts) e hsnd
      exact Prod.ext hfst hsnd

/-- Witness for C6: both oracles fail on the single non-empty post. -/
theorem analyze_aborts_on_first_error_witness :
    (∃ e, AnalyzePosts failingSentOracle [sampleBodyPost] = ([], some e) ∧
      firstApiError failingSentOracle
        (pruneEmptyPosts [sampleBodyPost]) = some e) ∧
    (∃ e, AnalyzeEntitesInPosts failingEntityOracle [sampleBodyPost] =
        ([], some e) ∧
      firstApiError failingEntityOracle
        (pruneEmptyPosts [sampleBodyPost]) = some e) :=
  analyze_aborts_on_first_error failingSentOracle failingEntityOracle
    [sampleBodyPost]
    ⟨sampleBodyPost, by decide, "boom", rfl⟩
    ⟨sampleBodyPost, by decide, "boom", rfl⟩

theorem listContainsSub_iff (s sub : List Char) :
    listContainsSub s sub = true ↔
      ∃ pre post : List Char, s = pre ++ sub ++ post := by
  induction s with
  | nil =>
    constructor
    · intro h
      rcases hsub : sub with _ | ⟨c, rest⟩
      · exact ⟨[], [], rfl⟩
      · rw [hsub] at h
        simp [listContainsSub] at h
    · rintro ⟨pre, post, hpp⟩
      rcases List.append_eq_nil.mp
        (List.append_eq_nil.mp hpp.symm).1 with ⟨h1, h2⟩
      simp [listContainsSub, h2]
  | cons c rest ih =>
    by_cases htake : (c :: rest).take sub.length = sub
    · constructor
      · intro _
        refine ⟨[], (c :: rest).drop sub.length, ?_⟩
        have hsplit := List.take_append_drop sub.length (c :: rest)
        rw [htake] at hsplit
        rw [List.nil_append]
        exact hsplit.symm
      · intro _
        rw [listContainsSub, if_pos htake]
    · rw [listContainsSub, if_neg htake]
      constructor
      · intro h
        rcases ih.mp h with ⟨pre, post, hpp⟩
        exact ⟨c :: pre, post, by simp [hpp]⟩
      · rintro ⟨pre, post, hpp⟩
        rcases pre with _ | ⟨c', pre'⟩
        · exfalso
          apply htake
          rw [hpp]
          exact List.take_left sub post
        · rcases List.cons_eq_cons.mp hpp with ⟨_, hrest⟩
          exact ih.mpr ⟨pre', post, hrest⟩

/-- C10: `startEntityAnalysis` takes the merge-into-existing-file path
exactly when the lowercased filename contains "analyzed" as a substring
anywhere (characterised as a decomposition `pre ++ "analyzed" ++ post` of
the lowercased character list); in particular the check is
case-insensitive and is not restricted to a "_analyzed" suffix before the
extension. -/
theorem isAnalysisFilename_substring_anywhere :
    (∀ filename : String,
      startEntityAnalysisPath filename = AnalysisPath.mergeExisting ↔
        ∃ pre post : List Char,
          (stringToLower filename).toList =
            pre ++ "analyzed".toList ++ post) ∧
    isAnalysisFilename "POSTS_ANALYZED.JSON" = true ∧
    isAnalysisFilename "backup_analyzed_v2.json" = true ∧
    isAnalysisFilename "posts.json" = false := by
  refine ⟨?_, by decide, by decide, by decide⟩
  intro filename
  have hpath : startEntityAnalysisPath filename = AnalysisPath.mergeExisting ↔
      isAnalysisFilename filename = true := by
    by_cases h : isAnalysisFilename filename = true <;>
      simp [startEntityAnalysisPath, h]
  rw [hpath]
  rw [show isAnalysisFilename filename =
    listContainsSub (stringToLower filename).toList "analyzed".toList from rfl]
  exact listContainsSub_iff (stringToLower filename).toList "analyzed".toList

/-- Witness for C10: an uppercase, prefix-position occurrence of
"analyzed" routes the request down the merge path. -/
theorem isAnalysisFilename_substring_anywhere_witness :
    startEntityAnalysisPath "ANALYZED_data.json" = AnalysisPath.mergeExisting :=
  (isAnalysisFilename_substring_anywhere.1 "ANALYZED_data.json").mpr
    ⟨[], "_data.json".toList, by decide⟩
